import Mathlib

/-!
Verification development for the news aggregation, scoring and caching core of
the situation-monitor repository.  The TypeScript sources are shallowly
embedded: text is modelled as lists of characters, the regex based RSS parsing
is modelled by executable scanning functions with the same leftmost-match
semantics, the in-memory caches are modelled as association lists, and the
stable Array.sort of JavaScript (stability is guaranteed by the ECMAScript
specification) is modelled by stable insertion sort.  Recursions that are not
structural are given explicit fuel so that every definition reduces inside the
kernel; each call site passes fuel that is provably sufficient for the input.
-/

namespace SituationMonitor

/-- Character comparison used to model regex matching; when ci is true the
comparison is case-insensitive, modelling the i regex flag. -/
def charEq (ci : Bool) (a b : Char) : Bool :=
  if ci then a.toLower == b.toLower else a == b

/-- Tests whether pat occurs at the very start of s, comparing characters with
charEq ci. -/
def prefixMatch (ci : Bool) : List Char → List Char → Bool
  | [], _ => true
  | _ :: _, [] => false
  | p :: ps, c :: cs => charEq ci p c && prefixMatch ci ps cs

/-- Splits s around the earliest occurrence of the literal pattern pat,
returning the text before the occurrence and the text after it, or none when
pat does not occur.  This models the leftmost match of a regex consisting of a
lazy any-character group followed by the literal pat. -/
def splitFirst (ci : Bool) (pat : List Char) : List Char → Option (List Char × List Char)
  | [] => if prefixMatch ci pat [] then some ([], []) else none
  | c :: rest =>
    if prefixMatch ci pat (c :: rest) then some ([], (c :: rest).drop pat.length)
    else
      match splitFirst ci pat rest with
      | some (pre, post) => some (c :: pre, post)
      | none => none

/-- Substring test, modelling the JavaScript String.includes method
(case-sensitive). -/
def containsSub (pat s : List Char) : Bool :=
  (splitFirst false pat s).isSome

/-- Lowercases every character, modelling String.toLowerCase. -/
def toLowerList (s : List Char) : List Char :=
  s.map Char.toLower

/-- Removes leading and trailing whitespace, modelling String.trim. -/
def jsTrim (s : List Char) : List Char :=
  ((s.dropWhile Char.isWhitespace).reverse.dropWhile Char.isWhitespace).reverse

/-- Fueled worker for replaceAll.  Each step consumes the text up to and
including one occurrence of the pattern, so fuel equal to the length of the
text plus one is always sufficient. -/
def replaceAllGo (pat repl : List Char) : Nat → List Char → List Char
  | 0, s => s
  | fuel + 1, s =>
    if pat.isEmpty then s
    else
      match splitFirst false pat s with
      | none => s
      | some (pre, post) => pre ++ repl ++ replaceAllGo pat repl fuel post

/-- Replaces every (non-overlapping, leftmost-first) occurrence of pat by repl,
modelling the JavaScript String.replace with a global literal regex. -/
def replaceAll (pat repl s : List Char) : List Char :=
  replaceAllGo pat repl (s.length + 1) s

/-- Fueled worker for stripTags. -/
def stripTagsGo : Nat → List Char → List Char
  | 0, s => s
  | fuel + 1, s =>
    match s with
    | [] => []
    | c :: rest =>
      if c = '<' then
        match splitFirst false ['>'] rest with
        | some (_, post) => stripTagsGo fuel post
        | none => c :: stripTagsGo fuel rest
      else c :: stripTagsGo fuel rest

/-- Removes every markup tag, modelling the replacement of the regex matching a
less-than sign, a run of characters other than greater-than, and a
greater-than sign, by the empty string.  The match runs from each less-than
sign to the first following greater-than sign. -/
def stripTags (s : List Char) : List Char :=
  stripTagsGo s.length s

/-- Digit character for base 36, 0-9 then a-z, as produced by the JavaScript
Number.toString with radix 36. -/
def base36Digit (n : Nat) : Char :=
  if n < 10 then Char.ofNat (48 + n) else Char.ofNat (87 + n)

/-- Fueled base-36 conversion worker; fuel equal to the number itself is always
sufficient since the number shrinks by a factor of 36 each step. -/
def natToBase36Go : Nat → Nat → List Char → List Char
  | 0, _, acc => acc
  | fuel + 1, n, acc =>
    if n = 0 then acc else natToBase36Go fuel (n / 36) (base36Digit (n % 36) :: acc)

/-- Base-36 rendering of a natural number, modelling Number.toString(36). -/
def natToBase36 (n : Nat) : List Char :=
  if n = 0 then ['0'] else natToBase36Go n n []

/-- Wraps an integer into the signed 32-bit range, modelling the coercion that
the JavaScript bitwise operators apply to numbers. -/
def wrap32 (n : Int) : Int :=
  (n + 2 ^ 31) % 2 ^ 32 - 2 ^ 31

/-- One step of the rolling string hash: shift left by five (a 32-bit
operation), subtract the previous hash, add the character code, and coerce back
to 32 bits with the bitwise and of the value with itself. -/
def hashStep (h : Int) (c : Char) : Int :=
  wrap32 (wrap32 (h * 32) - h + (c.toNat : Int))

/-- Rolling 32-bit string hash rendered in base 36 after taking the absolute
value, from the hashCode helper shared by the fetcher variants. -/
def hashCode (s : List Char) : List Char :=
  natToBase36 (s.foldl hashStep 0).natAbs

/-- Normalized article produced by every fetcher, from the object literals
built in the RSS and Google News adapters (the shared type declaration file is
not part of the analysed sources; the fields below are exactly the ones those
literals assign). -/
structure NewsItem where
  id : List Char
  title : List Char
  link : List Char
  description : Option (List Char)
  pubDate : List Char
  timestamp : Int
  source : List Char
  category : List Char
  isAlert : Bool
  alertKeyword : Option (List Char)
  region : Option (List Char)
  topics : List (List Char)
  relevanceScore : Option Int
deriving DecidableEq

/-- Score of an item as read by the sort comparators, modelling the JavaScript
expression taking relevanceScore or zero when it is absent. -/
def scoreOf (item : NewsItem) : Int :=
  item.relevanceScore.getD 0

/-- Comparator relation of the per-category sort: an item may precede another
exactly when its score is at least as large.  Stable insertion sort under this
relation reproduces the JavaScript stable Array.sort with the comparator
subtracting relevance scores. -/
def scoreGE (a b : NewsItem) : Prop :=
  scoreOf b ≤ scoreOf a

instance : DecidableRel scoreGE := fun _ _ => Int.decLe _ _

instance : IsTotal NewsItem scoreGE := ⟨fun a b => le_total (scoreOf b) (scoreOf a)⟩

instance : IsTrans NewsItem scoreGE := ⟨fun _ _ _ h1 h2 => le_trans h2 h1⟩

/-- Comparator relation of the unified recent view: an item may precede another
exactly when its timestamp is at least as large, modelling the comparator
subtracting timestamps. -/
def tsGE (a b : NewsItem) : Prop :=
  b.timestamp ≤ a.timestamp

instance : DecidableRel tsGE := fun _ _ => Int.decLe _ _

instance : IsTotal NewsItem tsGE := ⟨fun a b => le_total b.timestamp a.timestamp⟩

instance : IsTrans NewsItem tsGE := ⟨fun _ _ _ h1 h2 => le_trans h2 h1⟩

/-- Convenience constructor for concrete items: only title, timestamp and
relevance score vary, all other fields are fixed defaults. -/
def mkItem (title : List Char) (ts : Int) (score : Int) : NewsItem :=
  ⟨[], title, ['x'], none, [], ts, [], [], false, none, none, [], some score⟩

/-- Converts a list of string literals to lists of characters. -/
def strs (l : List String) : List (List Char) :=
  l.map String.data

/-- Cache entry of the server-side news store: the items of one category and
the time they were written. -/
structure NewsCacheEntry where
  items : List NewsItem
  lastUpdated : Int
deriving DecidableEq

/-- The news cache object, keyed by category name; modelled as an association
list whose order is the key insertion order iterated by Object.keys. -/
abbrev NewsCache := List (List Char × NewsCacheEntry)

/-- Property-style access to the cache object, returning the entry stored
under a key if any. -/
def cacheLookup : NewsCache → List Char → Option NewsCacheEntry
  | [], _ => none
  | (k, e) :: rest, key => if k = key then some e else cacheLookup rest key

/-- Initial value of the news cache: the seven categories, each with an empty
item list and a zero timestamp. -/
def initialNewsCache : NewsCache :=
  (strs ["politics", "tech", "finance", "gov", "ai", "intel", "realtime"]).map
    (fun c => (c, ⟨[], 0⟩))

/-- Read operation of the store: the stored entry, or the default entry with
an empty item list and zero timestamp when the key is absent. -/
def getCategoryNews (cache : NewsCache) (category : List Char) : NewsCacheEntry :=
  match cacheLookup cache category with
  | some e => e
  | none => ⟨[], 0⟩

/-- Write operation of the store: assigns a fresh entry holding the given
items and the current time under the category key, updating in place when the
key exists and appending it otherwise (JavaScript property assignment). -/
def setCategoryNews (cache : NewsCache) (category : List Char) (items : List NewsItem)
    (now : Int) : NewsCache :=
  match cache with
  | [] => [(category, ⟨items, now⟩)]
  | (k, e) :: rest =>
    if k = category then (k, ⟨items, now⟩) :: rest
    else (k, e) :: setCategoryNews rest category items now

/-- Concatenation of the item lists of every category in key order, as pushed
by the loop over Object.keys in getAllNews. -/
def allCacheItems (cache : NewsCache) : List NewsItem :=
  (cache.map (fun kv => kv.2.items)).flatten

/-- Unified recent view: all cached items sorted by timestamp, most recent
first.  The JavaScript Array.sort is stable, which stable insertion sort under
the timestamp comparator relation reproduces. -/
def getAllNews (cache : NewsCache) : List NewsItem :=
  List.insertionSort tsGE (allCacheItems cache)

/-- Entry of the AI analysis cache. -/
structure AiEntry where
  significance : Int
  summary : List Char
  timestamp : Int
deriving DecidableEq

/-- The AI analysis cache, a map from headline key to entry. -/
abbrev AiCache := List (List Char × AiEntry)

/-- Map lookup of the AI analysis cache. -/
def aiLookup : AiCache → List Char → Option AiEntry
  | [], _ => none
  | (k, e) :: rest, key => if k = key then some e else aiLookup rest key

/-- Cached AI analysis read: returns the stored significance and summary only
when an entry exists and is younger than the thirty-minute TTL, and null
(none) otherwise. -/
def getAiAnalysis (cache : AiCache) (now : Int) (headlineId : List Char) :
    Option (Int × List Char) :=
  match aiLookup cache headlineId with
  | some cached =>
    if now - cached.timestamp < 30 * 60 * 1000 then some (cached.significance, cached.summary)
    else none
  | none => none

/-- The uncached-headlines list built by the AI analysis POST endpoint: each
headline whose cache read returns null is pushed with its index and later
submitted to the external analysis call. -/
def uncachedHeadlinesOf (cache : AiCache) (now : Int) (headlines : List (List Char)) :
    List (Nat × List Char) :=
  headlines.enum.filter (fun p => (getAiAnalysis cache now p.2).isNone)

namespace NewsScraper

/-- Alert keywords of the server-side scraper, in source order. -/
def ALERT_KEYWORDS : List (List Char) :=
  strs ["breaking", "urgent", "emergency", "attack", "explosion", "war", "invasion",
    "missile", "nuclear", "sanctions", "crisis", "outbreak", "collapse", "coup",
    "assassination", "drone strike", "cyber attack", "hostage", "terror"]

/-- Priority sources of the server-side scraper. -/
def PRIORITY_SOURCES : List (List Char) :=
  strs ["reuters", "associated press", "ap news", "bbc", "the guardian",
    "new york times", "washington post", "foreign policy", "foreign affairs",
    "the economist", "financial times", "wall street journal", "politico",
    "al jazeera", "dw", "france24"]

/-- Attempts to match the tag extraction regex at the start of s: the opening
tag (its name compared case-insensitively, then any run of characters other
than greater-than, then the closing bracket), followed by either a CDATA
section closed by the closing tag, or plain lazy content closed by the closing
tag.  The CDATA alternative is tried first, as it is first in the regex
alternation; either way the lazy group captures up to the earliest closing
delimiter. -/
def matchTagAt (tag s : List Char) : Option (List Char) :=
  if prefixMatch true ('<' :: tag) s then
    match splitFirst false ['>'] (s.drop (tag.length + 1)) with
    | none => none
    | some (_, afterGt) =>
      if prefixMatch true "<![CDATA[".data afterGt then
        match splitFirst true ("]]></".data ++ tag ++ ['>']) (afterGt.drop 9) with
        | some (content, _) => some content
        | none =>
          match splitFirst true ("</".data ++ tag ++ ['>']) afterGt with
          | some (content, _) => some content
          | none => none
      else
        match splitFirst true ("</".data ++ tag ++ ['>']) afterGt with
        | some (content, _) => some content
        | none => none
  else none

/-- Scans every start position left to right, modelling the leftmost-match
search of String.match. -/
def extractTagGo (tag : List Char) : List Char → Option (List Char)
  | [] => none
  | c :: rest =>
    match matchTagAt tag (c :: rest) with
    | some content => some content
    | none => extractTagGo tag rest

/-- Extracts the trimmed content of the first occurrence of an XML tag,
CDATA-wrapped or plain, returning the empty string when the tag is absent. -/
def extractTag (xml tag : List Char) : List Char :=
  match extractTagGo tag xml with
  | some content => jsTrim content
  | none => []

/-- Entity decoding of the server-side scraper: the six entity replacements in
source order, then the removal of every embedded markup tag. -/
def decodeHTMLEntities (text : List Char) : List Char :=
  stripTags
    (replaceAll "&apos;".data [Char.ofNat 39]
      (replaceAll "&#39;".data [Char.ofNat 39]
        (replaceAll "&quot;".data ['"']
          (replaceAll "&gt;".data ">".data
            (replaceAll "&lt;".data "<".data
              (replaceAll "&amp;".data "&".data text))))))

/-- Fueled worker splitting the XML into the contents of successive item
elements; one step consumes at least the opening and closing item tags, so
fuel equal to the length of the text is always sufficient. -/
def splitItemsGo : Nat → List Char → List (List Char)
  | 0, _ => []
  | fuel + 1, xml =>
    match splitFirst true "<item>".data xml with
    | none => []
    | some (_, afterOpen) =>
      match splitFirst true "</item>".data afterOpen with
      | none => []
      | some (content, afterClose) => content :: splitItemsGo fuel afterClose

/-- Contents of the successive item elements of an RSS document, as produced
by repeatedly executing the global lazy item regex. -/
def splitItems (xml : List Char) : List (List Char) :=
  splitItemsGo xml.length xml

/-- Recency boost of the server-side scraper, on the age of the article in
milliseconds: the three tiers below one hour, below six hours and below one
day (comparisons of the fractional hour age against the tier bounds are exact
integer comparisons against the bounds in milliseconds). -/
def recencyBoost (ageMs : Int) : Int :=
  if ageMs < 3600000 then 20
  else if ageMs < 21600000 then 15
  else if ageMs < 86400000 then 10
  else 0

/-- Relevance sum of the server-side scraper before clamping: base 50, plus 20
for a priority source, plus 15 for an alert keyword, plus the recency boost
when a publication date is present. -/
def relevanceRaw (priorityHit alertHit : Bool) (ageMs : Option Int) : Int :=
  50 + (if priorityHit then 20 else 0) + (if alertHit then 15 else 0) +
    (match ageMs with
     | some age => recencyBoost age
     | none => 0)

/-- Relevance score assigned by the server-side scraper: the sum clamped from
above to 100 (this variant never subtracts, so no lower clamp appears in the
source). -/
def relevanceScore (priorityHit alertHit : Bool) (ageMs : Option Int) : Int :=
  min 100 (relevanceRaw priorityHit alertHit ageMs)

/-- Transformation of the content of one item element into a news item; none
models the continue statement skipping items without title or link.  The
parameters now and dateParse model the runtime clock and date parser, and
host models the source name extracted from the feed URL by the URL runtime
library (used only when the item has no source tag). -/
def parseItemBlock (category host : List Char) (now : Int) (dateParse : List Char → Int)
    (index : Nat) (itemXml : List Char) : Option NewsItem :=
  let title := extractTag itemXml "title".data
  let link := extractTag itemXml "link".data
  let pubDate := extractTag itemXml "pubDate".data
  let description := extractTag itemXml "description".data
  let source0 := extractTag itemXml "source".data
  let source := if source0.isEmpty then host else source0
  if title.isEmpty || link.isEmpty then none
  else
    let titleLower := toLowerList title
    let sourceLower := toLowerList source
    let alertKeyword := ALERT_KEYWORDS.find? (fun kw => containsSub kw titleLower)
    let priorityHit := PRIORITY_SOURCES.any (fun ps => containsSub ps sourceLower)
    let ageMs := if pubDate.isEmpty then none else some (now - dateParse pubDate)
    some
      { id := "rss-".data ++ category ++ ['-'] ++ hashCode link ++ ['-'] ++ Nat.toDigits 10 index
        title := decodeHTMLEntities title
        link := link
        description :=
          if description.isEmpty then none else some ((decodeHTMLEntities description).take 200)
        pubDate := pubDate
        timestamp := if pubDate.isEmpty then now else dateParse pubDate
        source := decodeHTMLEntities source
        category := if category = "realtime".data then "politics".data else category
        isAlert := alertKeyword.isSome
        alertKeyword := alertKeyword
        region := none
        topics := []
        relevanceScore := some (relevanceScore priorityHit alertKeyword.isSome ageMs) }

/-- Worker of parseRSS: the index counts only pushed items, because the
continue statement skips the increment together with the push. -/
def parseRSSGo (category host : List Char) (now : Int) (dateParse : List Char → Int) :
    Nat → List (List Char) → List NewsItem
  | _, [] => []
  | index, block :: rest =>
    match parseItemBlock category host now dateParse index block with
    | some item => item :: parseRSSGo category host now dateParse (index + 1) rest
    | none => parseRSSGo category host now dateParse index rest

/-- Regex based RSS parsing of the server-side scraper. -/
def parseRSS (xmlText category host : List Char) (now : Int)
    (dateParse : List Char → Int) : List NewsItem :=
  parseRSSGo category host now dateParse 0 (splitItems xmlText)

/-- Deduplication key: the lowercased title truncated to its first fifty
characters. -/
def titleKey (item : NewsItem) : List Char :=
  (toLowerList item.title).take 50

/-- Worker of the dedup filter, carrying the set of already seen keys. -/
def dedupGo : List (List Char) → List NewsItem → List NewsItem
  | _, [] => []
  | seen, item :: rest =>
    if titleKey item ∈ seen then dedupGo seen rest
    else item :: dedupGo (titleKey item :: seen) rest

/-- Per-category deduplication of the scrape cycle: drops every item whose
title key was already seen, first occurrence winning. -/
def dedupByTitle (items : List NewsItem) : List NewsItem :=
  dedupGo [] items

/-- Per-category sort of the scrape cycle: stable sort by descending relevance
score. -/
def sortByScoreDesc (items : List NewsItem) : List NewsItem :=
  List.insertionSort scoreGE items

/-- Per-category post-processing of the scrape cycle: dedup, sort by
descending relevance score, keep the top fifty. -/
def processCategory (items : List NewsItem) : List NewsItem :=
  (sortByScoreDesc (dedupByTitle items)).take 50

/-- Cache write performed for one category at the end of a scrape cycle; it is
executed unconditionally for every category. -/
def scrapeWriteCategory (cache : NewsCache) (category : List Char)
    (fetched : List NewsItem) (now : Int) : NewsCache :=
  setCategoryNews cache category (processCategory fetched) now

/-- Observable actions of the background scheduler start operation. -/
inductive SchedEvent where
  | scrapeNow : SchedEvent
  | registerTimer (intervalMs : Int) : SchedEvent
deriving DecidableEq

/-- State predicate of the scheduler: a timer handle is registered. -/
def isScrapingActive (timer : Option Nat) : Bool :=
  timer.isSome

/-- Start operation of the background scheduler on the stored timer handle:
returns the new handle together with the list of performed actions.  When a
timer is already active, or the enable flag differs from the string true, it
does nothing; otherwise it performs one immediate scrape, registers one
recurring timer at the configured interval, and stores its handle. -/
def startBackgroundScraping (enableFlag : List Char) (intervalMs : Int)
    (timer : Option Nat) : Option Nat × List SchedEvent :=
  if isScrapingActive timer then (timer, [])
  else if enableFlag ≠ "true".data then (timer, [])
  else (some 0, [SchedEvent.scrapeNow, SchedEvent.registerTimer intervalMs])

end NewsScraper

namespace NewsApi

/-- Recency boost of the client-side Google News fetcher, on the age of the
article in milliseconds: tiers below six hours, below one day, below two
days. -/
def recencyBoost (ageMs : Int) : Int :=
  if ageMs < 21600000 then 15
  else if ageMs < 86400000 then 10
  else if ageMs < 172800000 then 5
  else 0

/-- Relevance sum of the client-side fetcher before clamping.  The keyword
module holding the alert, region and topic predicates is not among the
analysed sources, so the score is taken over the outcomes of those predicate
calls: whether a priority source matched, whether an alert keyword matched,
the age when a publication date is present, whether a region matched, how
many topics matched, and whether a clickbait phrase matched; the arithmetic
applied to these outcomes is exactly that of the source. -/
def calculateRelevanceScoreRaw (priorityHit alertHit : Bool) (ageMs : Option Int)
    (regionHit : Bool) (topicCount : Nat) (clickbaitHit : Bool) : Int :=
  50 + (if priorityHit then 20 else 0) + (if alertHit then 15 else 0) +
    (match ageMs with
     | some age => recencyBoost age
     | none => 0) +
    (if regionHit then 10 else 0) + min (5 * (topicCount : Int)) 15 -
    (if clickbaitHit then 20 else 0)

/-- Relevance score of the client-side fetcher: the sum clamped to the range
from 0 to 100. -/
def calculateRelevanceScore (priorityHit alertHit : Bool) (ageMs : Option Int)
    (regionHit : Bool) (topicCount : Nat) (clickbaitHit : Bool) : Int :=
  max 0 (min 100 (calculateRelevanceScoreRaw priorityHit alertHit ageMs regionHit
    topicCount clickbaitHit))

end NewsApi

namespace GNews

/-- Recency boost of the server-side Google News route, identical tiers to the
client-side fetcher. -/
def recencyBoost (ageMs : Int) : Int :=
  if ageMs < 21600000 then 15
  else if ageMs < 86400000 then 10
  else if ageMs < 172800000 then 5
  else 0

/-- Relevance sum of the server-side Google News route before clamping, over
the outcomes of the keyword predicate calls (the keyword module is not among
the analysed sources); the priority domain table and the clickbait phrase set
differ from the client-side fetcher only inside those outcomes. -/
def calculateRelevanceScoreRaw (priorityHit alertHit : Bool) (ageMs : Option Int)
    (regionHit : Bool) (topicCount : Nat) (clickbaitHit : Bool) : Int :=
  50 + (if priorityHit then 20 else 0) + (if alertHit then 15 else 0) +
    (match ageMs with
     | some age => recencyBoost age
     | none => 0) +
    (if regionHit then 10 else 0) + min (5 * (topicCount : Int)) 15 -
    (if clickbaitHit then 20 else 0)

/-- Relevance score of the server-side Google News route: the sum clamped to
the range from 0 to 100. -/
def calculateRelevanceScore (priorityHit alertHit : Bool) (ageMs : Option Int)
    (regionHit : Bool) (topicCount : Nat) (clickbaitHit : Bool) : Int :=
  max 0 (min 100 (calculateRelevanceScoreRaw priorityHit alertHit ageMs regionHit
    topicCount clickbaitHit))

/-- Category list of the Google News route. -/
def NEWS_CATEGORIES : List (List Char) :=
  strs ["politics", "tech", "finance", "gov", "ai", "intel"]

/-- Response body of the GET handler of the news route, as an object modelled
by a key-value list; fetchCat stands for the per-category fetch.  With a
non-empty category parameter other than the string all, the body is a single
property keyed by the category name holding the item list; otherwise the body
has one property per category. -/
def GETnews (fetchCat : List Char → List NewsItem) :
    Option (List Char) → List (List Char × List NewsItem)
  | some c =>
    if c.isEmpty || c = "all".data then NEWS_CATEGORIES.map (fun cat => (cat, fetchCat cat))
    else [(c, fetchCat c)]
  | none => NEWS_CATEGORIES.map (fun cat => (cat, fetchCat cat))

/-- Key set test on a modelled response object. -/
def hasKey (resp : List (List Char × List NewsItem)) (key : List Char) : Bool :=
  resp.any (fun kv => kv.1 = key)

end GNews

/-- Modelled from the spec: the cache-entry ordering stated in the data model
section, descending relevance score with ties broken by recency (more recent
timestamp first), written adjacent-wise as an executable check.  This
definition follows the words of the specification and exists only to be
compared with the ordering the code actually produces. -/
def specScoreThenRecencyLe (a b : NewsItem) : Bool :=
  scoreOf b < scoreOf a || (scoreOf b = scoreOf a && b.timestamp ≤ a.timestamp)

/-- Modelled from the spec: adjacent-wise sortedness under the score-then-
recency order of the specification. -/
def specSortedByScoreThenRecency : List NewsItem → Bool
  | [] => true
  | [_] => true
  | a :: b :: rest => specScoreThenRecencyLe a b && specSortedByScoreThenRecency (b :: rest)

/-- Concrete RSS document of the round-trip scenario: one item whose title
element wraps its text in a CDATA section and whose link is non-empty. -/
def cdataRoundTripXml : List Char :=
  "<item><title><![CDATA[Breaking: Test & Title]]></title><link>https://example.com/article</link></item>".data

/-! Helper lemmas shared by the claim theorems. -/

theorem clamp_bounds (x : Int) : 0 ≤ max 0 (min 100 x) ∧ max 0 (min 100 x) ≤ 100 := by
  constructor <;> omega

theorem scraper_raw_lower (p a : Bool) (g : Option Int) :
    50 ≤ NewsScraper.relevanceRaw p a g := by
  cases g <;> cases p <;> cases a <;>
    simp [NewsScraper.relevanceRaw, NewsScraper.recencyBoost] <;> split_ifs <;> omega

theorem cacheLookup_set_self (cache : NewsCache) (cat : List Char) (items : List NewsItem)
    (now : Int) :
    cacheLookup (setCategoryNews cache cat items now) cat = some ⟨items, now⟩ := by
  induction cache with
  | nil => simp [setCategoryNews, cacheLookup]
  | cons kv rest ih =>
    obtain ⟨k, e⟩ := kv
    by_cases h : k = cat
    · simp [setCategoryNews, cacheLookup, h]
    · simp [setCategoryNews, cacheLookup, h, ih]

theorem processCategory_sorted (items : List NewsItem) :
    (NewsScraper.processCategory items).Pairwise scoreGE := by
  have hs : (NewsScraper.sortByScoreDesc (NewsScraper.dedupByTitle items)).Pairwise scoreGE :=
    List.sorted_insertionSort scoreGE (NewsScraper.dedupByTitle items)
  exact List.Pairwise.take hs

theorem processCategory_le_50 (items : List NewsItem) :
    (NewsScraper.processCategory items).length ≤ 50 := by
  simp [NewsScraper.processCategory]

theorem mem_dedupGo_not_seen {seen : List (List Char)} {items : List NewsItem} :
    ∀ x ∈ NewsScraper.dedupGo seen items, NewsScraper.titleKey x ∉ seen := by
  induction items generalizing seen with
  | nil => intro x hx; simp [NewsScraper.dedupGo] at hx
  | cons a rest ih =>
    intro x hx
    by_cases h : NewsScraper.titleKey a ∈ seen
    · rw [NewsScraper.dedupGo, if_pos h] at hx
      exact ih x hx
    · rw [NewsScraper.dedupGo, if_neg h] at hx
      rcases List.mem_cons.mp hx with rfl | hx
      · exact h
      · intro hmem
        exact ih x hx (List.mem_cons_of_mem _ hmem)

theorem dedupGo_pairwise (seen : List (List Char)) (items : List NewsItem) :
    (NewsScraper.dedupGo seen items).Pairwise
      (fun a b => NewsScraper.titleKey a ≠ NewsScraper.titleKey b) := by
  induction items generalizing seen with
  | nil => simp [NewsScraper.dedupGo]
  | cons a rest ih =>
    by_cases h : NewsScraper.titleKey a ∈ seen
    · rw [NewsScraper.dedupGo, if_pos h]
      exact ih seen
    · rw [NewsScraper.dedupGo, if_neg h]
      refine List.pairwise_cons.mpr ⟨?_, ih _⟩
      intro b hb heq
      exact mem_dedupGo_not_seen b hb (heq ▸ List.mem_cons_self _ _)

theorem dedupGo_eq_self (seen : List (List Char)) (items : List NewsItem)
    (h1 : ∀ x ∈ items, NewsScraper.titleKey x ∉ seen)
    (h2 : items.Pairwise (fun a b => NewsScraper.titleKey a ≠ NewsScraper.titleKey b)) :
    NewsScraper.dedupGo seen items = items := by
  induction items generalizing seen with
  | nil => simp [NewsScraper.dedupGo]
  | cons a rest ih =>
    have ha : NewsScraper.titleKey a ∉ seen := h1 a (List.mem_cons_self _ _)
    rw [NewsScraper.dedupGo, if_neg ha]
    rcases List.pairwise_cons.mp h2 with ⟨hhead, htail⟩
    congr 1
    refine ih _ ?_ htail
    intro x hx
    intro hmem
    rcases List.mem_cons.mp hmem with heq | hseen
    · exact hhead x hx heq.symm
    · exact h1 x (List.mem_cons_of_mem _ hx) hseen

theorem mem_uncached_aux (P : Nat × List Char → Bool) (l : List (List Char)) (key : List Char)
    (hk : key ∈ l) (hp : ∀ i : Nat, P (i, key) = true) :
    ∀ n : Nat, key ∈ ((l.enumFrom n).filter P).map Prod.snd := by
  induction l with
  | nil => cases hk
  | cons a rest ih =>
    intro n
    rcases List.mem_cons.mp hk with rfl | hmem
    · refine List.mem_map.mpr ⟨(n, key), ?_, rfl⟩
      exact List.mem_filter.mpr ⟨List.mem_cons_self _ _, hp n⟩
    · have := ih hmem (n + 1)
      rcases List.mem_map.mp this with ⟨p, hpmem, hpsnd⟩
      refine List.mem_map.mpr ⟨p, ?_, hpsnd⟩
      rcases List.mem_filter.mp hpmem with ⟨hpin, hPp⟩
      exact List.mem_filter.mpr ⟨List.mem_cons_of_mem _ hpin, hPp⟩

theorem getAiAnalysis_of_lookup (cache : AiCache) (now : Int) (key : List Char) (e : AiEntry)
    (he : aiLookup cache key = some e) :
    getAiAnalysis cache now key =
      if now - e.timestamp < 1800000 then some (e.significance, e.summary) else none := by
  simp only [getAiAnalysis, he]
  norm_num

theorem getAiAnalysis_of_none (cache : AiCache) (now : Int) (key : List Char)
    (he : aiLookup cache key = none) : getAiAnalysis cache now key = none := by
  simp only [getAiAnalysis, he]

/-! Claim theorems. -/

/-- C1: every scoring variant returns an integer relevance score within the
range from 0 to 100 for every combination of signals; in the client-side and
Google News route variants the full stack of boosts (priority source, alert,
age below six hours, region, three topics, no clickbait) sums to 125 before
clamping and the returned score is 100; in the server-side RSS scraper, which
has no region, topic or clickbait signals and only an upper clamp, the full
stack of its boosts (priority source, alert, age below one hour) sums to 105
before clamping and the returned score is 100. -/
theorem relevance_score_always_clamped :
    (∀ (p a : Bool) (g : Option Int),
      0 ≤ NewsScraper.relevanceScore p a g ∧ NewsScraper.relevanceScore p a g ≤ 100) ∧
    (∀ (p a : Bool) (g : Option Int) (r : Bool) (t : Nat) (c : Bool),
      0 ≤ NewsApi.calculateRelevanceScore p a g r t c ∧
        NewsApi.calculateRelevanceScore p a g r t c ≤ 100) ∧
    (∀ (p a : Bool) (g : Option Int) (r : Bool) (t : Nat) (c : Bool),
      0 ≤ GNews.calculateRelevanceScore p a g r t c ∧
        GNews.calculateRelevanceScore p a g r t c ≤ 100) ∧
    NewsApi.calculateRelevanceScoreRaw true true (some 7200000) true 3 false = 125 ∧
    NewsApi.calculateRelevanceScore true true (some 7200000) true 3 false = 100 ∧
    GNews.calculateRelevanceScoreRaw true true (some 7200000) true 3 false = 125 ∧
    GNews.calculateRelevanceScore true true (some 7200000) true 3 false = 100 ∧
    NewsScraper.relevanceRaw true true (some 0) = 105 ∧
    NewsScraper.relevanceScore true true (some 0) = 100 := by
  refine ⟨?_, ?_, ?_, by decide, by decide, by decide, by decide, by decide, by decide⟩
  · intro p a g
    have h := scraper_raw_lower p a g
    unfold NewsScraper.relevanceScore
    omega
  · intro p a g r t c
    exact clamp_bounds _
  · intro p a g r t c
    exact clamp_bounds _

/-- C2 (amended): the entry written to the news store for a category at the
end of a scrape cycle holds exactly the processed item list with the write
time, that list is sorted by descending relevance score, and its length is at
most fifty.  Ties are left in the stable pre-sort order, not broken by
recency: see the counterexample theorem. -/
theorem scrape_write_sorted_and_capped (cache : NewsCache) (cat : List Char)
    (fetched : List NewsItem) (now : Int) :
    cacheLookup (NewsScraper.scrapeWriteCategory cache cat fetched now) cat =
      some ⟨NewsScraper.processCategory fetched, now⟩ ∧
    (NewsScraper.processCategory fetched).Pairwise scoreGE ∧
    (NewsScraper.processCategory fetched).length ≤ 50 :=
  ⟨cacheLookup_set_self cache cat _ now, processCategory_sorted fetched,
    processCategory_le_50 fetched⟩

/-- C2 counterexample: two items with equal relevance score, the older one
first, pass through the per-category pipeline unchanged, so the written order
violates the tie-break by recency stated in the claim (the more recent item
does not come first). -/
theorem scrape_write_tiebreak_counterexample :
    NewsScraper.processCategory [mkItem "a".data 0 50, mkItem "b".data 100 50] =
      [mkItem "a".data 0 50, mkItem "b".data 100 50] ∧
    scoreOf (mkItem "a".data 0 50) = scoreOf (mkItem "b".data 100 50) ∧
    (mkItem "a".data 0 50).timestamp < (mkItem "b".data 100 50).timestamp ∧
    specSortedByScoreThenRecency
      (NewsScraper.processCategory [mkItem "a".data 0 50, mkItem "b".data 100 50]) = false := by
  refine ⟨by decide, by decide, by decide, by decide⟩

/-- C3 (amended): the cache write at the end of a scrape cycle is never
skipped: when a category yields zero items the entry is overwritten with an
empty item list and a fresh timestamp, for every prior cache content. -/
theorem empty_scrape_overwrites (cache : NewsCache) (cat : List Char) (now : Int) :
    cacheLookup (NewsScraper.scrapeWriteCategory cache cat [] now) cat = some ⟨[], now⟩ :=
  cacheLookup_set_self cache cat _ now

/-- C3 counterexample: a category whose previous snapshot is non-empty is
overwritten by the write of a scrape cycle that produced zero items, so the
prior snapshot is not retained. -/
theorem empty_scrape_overwrites_counterexample :
    cacheLookup (setCategoryNews initialNewsCache "politics".data [mkItem "t".data 1 60] 5)
        "politics".data = some ⟨[mkItem "t".data 1 60], 5⟩ ∧
    cacheLookup
        (NewsScraper.scrapeWriteCategory
          (setCategoryNews initialNewsCache "politics".data [mkItem "t".data 1 60] 5)
          "politics".data [] 10)
        "politics".data = some ⟨[], 10⟩ ∧
    (NewsCacheEntry.mk [] 10 ≠ NewsCacheEntry.mk [mkItem "t".data 1 60] 5) := by
  refine ⟨by decide, by decide, by decide⟩

/-- C4: starting the background scheduler from the idle state with background
scraping enabled performs exactly one immediate scrape and registers exactly
one recurring timer, and a second start call on the resulting state is a
no-op leaving the stored timer handle unchanged. -/
theorem start_background_scraping_idempotent (intervalMs : Int) :
    NewsScraper.startBackgroundScraping "true".data intervalMs none =
      (some 0, [NewsScraper.SchedEvent.scrapeNow,
        NewsScraper.SchedEvent.registerTimer intervalMs]) ∧
    NewsScraper.startBackgroundScraping "true".data intervalMs
        (NewsScraper.startBackgroundScraping "true".data intervalMs none).1 =
      ((NewsScraper.startBackgroundScraping "true".data intervalMs none).1, []) := by
  constructor <;> rfl

/-- C5: the per-category deduplication filter is idempotent: applying it to
its own output returns that output unchanged. -/
theorem dedup_idempotent (items : List NewsItem) :
    NewsScraper.dedupByTitle (NewsScraper.dedupByTitle items) =
      NewsScraper.dedupByTitle items := by
  unfold NewsScraper.dedupByTitle
  refine dedupGo_eq_self [] _ ?_ (dedupGo_pairwise [] items)
  intro x _
  exact List.not_mem_nil _

/-- C6: the RSS item whose title element is the CDATA section wrapping the
text Breaking colon Test ampersand Title, with a non-empty link, parses to a
single news item whose title is exactly that text, CDATA unwrapped and
entities decoded. -/
theorem cdata_roundtrip :
    (NewsScraper.parseRSS cdataRoundTripXml "politics".data "example".data 0
        (fun _ => 0)).map NewsItem.title = ["Breaking: Test & Title".data] := by
  decide

/-- C7 (amended): for every valid category c the GET handler of the news route
responds with a single-property object keyed by the category name and holding
the fetched item list, and when the category parameter is omitted it responds
with one property per category holding that category's items; the body carries
no category, items, lastUpdated or count properties. -/
theorem news_get_response_shape (f : List Char → List NewsItem) (c : List Char)
    (hc : c ∈ GNews.NEWS_CATEGORIES) :
    GNews.GETnews f (some c) = [(c, f c)] ∧
    GNews.GETnews f none = GNews.NEWS_CATEGORIES.map (fun cat => (cat, f cat)) := by
  constructor
  · simp [GNews.NEWS_CATEGORIES, strs] at hc
    rcases hc with rfl | rfl | rfl | rfl | rfl | rfl <;> rfl
  · rfl

/-- C7 witness: instantiating the response-shape theorem at the politics
category and the empty fetch. -/
theorem news_get_response_shape_witness :
    ("politics".data ∈ GNews.NEWS_CATEGORIES) ∧
    GNews.GETnews (fun _ => ([] : List NewsItem)) (some "politics".data) =
      [("politics".data, [])] :=
  ⟨by decide, (news_get_response_shape (fun _ => []) "politics".data (by decide)).1⟩

/-- C7 counterexample: the GET response for the politics category is the
single-property object keyed politics, with no category, items, lastUpdated or
count properties, and the all-categories response carries no lastUpdated
property either; the response shape stated in the claim does not occur. -/
theorem news_get_shape_counterexample :
    GNews.GETnews (fun _ => []) (some "politics".data) = [("politics".data, [])] ∧
    GNews.hasKey (GNews.GETnews (fun _ => []) (some "politics".data)) "category".data = false ∧
    GNews.hasKey (GNews.GETnews (fun _ => []) (some "politics".data)) "items".data = false ∧
    GNews.hasKey (GNews.GETnews (fun _ => []) (some "politics".data)) "lastUpdated".data
      = false ∧
    GNews.hasKey (GNews.GETnews (fun _ => []) (some "politics".data)) "count".data = false ∧
    GNews.hasKey (GNews.GETnews (fun _ => []) none) "lastUpdated".data = false := by
  refine ⟨by decide, by decide, by decide, by decide, by decide, by decide⟩

/-- C8: the AI analysis cache read returns the stored significance and summary
exactly when an entry exists for the key and its age is under thirty minutes;
an entry aged thirty minutes or more reads as null, and a headline whose read
is null is placed on the uncached list that the endpoint submits for
analysis. -/
theorem ai_cache_ttl (cache : AiCache) (now : Int) (key : List Char) :
    (∀ e, aiLookup cache key = some e →
      (now - e.timestamp < 1800000 →
        getAiAnalysis cache now key = some (e.significance, e.summary)) ∧
      (1800000 ≤ now - e.timestamp → getAiAnalysis cache now key = none)) ∧
    (aiLookup cache key = none → getAiAnalysis cache now key = none) ∧
    ((getAiAnalysis cache now key).isSome ↔
      ∃ e, aiLookup cache key = some e ∧ now - e.timestamp < 1800000) ∧
    (∀ headlines : List (List Char), key ∈ headlines →
      getAiAnalysis cache now key = none →
      key ∈ (uncachedHeadlinesOf cache now headlines).map Prod.snd) := by
  refine ⟨?_, getAiAnalysis_of_none cache now key, ?_, ?_⟩
  · intro e he
    rw [getAiAnalysis_of_lookup cache now key e he]
    exact ⟨fun hfresh => if_pos hfresh, fun hstale => if_neg (by omega)⟩
  · constructor
    · intro hsome
      cases he : aiLookup cache key with
      | some e =>
        rw [getAiAnalysis_of_lookup cache now key e he] at hsome
        by_cases hf : now - e.timestamp < 1800000
        · exact ⟨e, rfl, hf⟩
        · rw [if_neg hf] at hsome
          simp at hsome
      | none =>
        rw [getAiAnalysis_of_none cache now key he] at hsome
        simp at hsome
    · rintro ⟨e, he, hf⟩
      rw [getAiAnalysis_of_lookup cache now key e he, if_pos hf]
      rfl
  · intro headlines hmem hnone
    have h := mem_uncached_aux (fun p => (getAiAnalysis cache now p.2).isNone) headlines key
      hmem (fun _ => by simp [hnone]) 0
    simpa [uncachedHeadlinesOf, List.enum] using h

/-- C8 witness: a concrete entry aged exactly thirty minutes reads as null and
is re-submitted, while the same entry one millisecond younger reads as the
cached pair. -/
theorem ai_cache_ttl_witness :
    getAiAnalysis [("h".data, ⟨7, "s".data, 0⟩)] 1800000 "h".data = none ∧
    "h".data ∈ (uncachedHeadlinesOf [("h".data, ⟨7, "s".data, 0⟩)] 1800000 ["h".data]).map
      Prod.snd ∧
    getAiAnalysis [("h".data, ⟨7, "s".data, 0⟩)] 1799999 "h".data = some (7, "s".data) := by
  have h := ai_cache_ttl [("h".data, ⟨7, "s".data, 0⟩)] 1800000 "h".data
  have h2 := ai_cache_ttl [("h".data, ⟨7, "s".data, 0⟩)] 1799999 "h".data
  have hstale := (h.1 ⟨7, "s".data, 0⟩ (by decide)).2 (by decide)
  exact ⟨hstale, h.2.2.2 ["h".data] (by decide) hstale,
    (h2.1 ⟨7, "s".data, 0⟩ (by decide)).1 (by decide)⟩

/-- C9: the unified recent view is a permutation of the concatenation of all
categories' item lists and is sorted by timestamp in descending order.  The
embedding of the read is a pure function of the cache: the source sorts a
fresh array assembled by pushing every entry's items, leaving the cache
entries untouched. -/
theorem get_all_news_recent_view (cache : NewsCache) :
    (getAllNews cache).Perm (allCacheItems cache) ∧ (getAllNews cache).Pairwise tsGE :=
  ⟨List.perm_insertionSort tsGE (allCacheItems cache),
    List.sorted_insertionSort tsGE (allCacheItems cache)⟩

/-- C10: the store read is total: for every cache state and every category
string it returns the stored entry when one exists and the default entry with
empty items and zero timestamp otherwise, in particular for the realtime
pseudo-category of the initial cache and for a key never written. -/
theorem get_category_news_total (cache : NewsCache) (category : List Char) :
    ((∃ e, cacheLookup cache category = some e ∧ getCategoryNews cache category = e) ∨
      (cacheLookup cache category = none ∧ getCategoryNews cache category = ⟨[], 0⟩)) ∧
    getCategoryNews initialNewsCache "realtime".data = ⟨[], 0⟩ ∧
    getCategoryNews initialNewsCache "never-written".data = ⟨[], 0⟩ := by
  refine ⟨?_, by decide, by decide⟩
  cases h : cacheLookup cache category with
  | some e => exact Or.inl ⟨e, rfl, by simp [getCategoryNews, h]⟩
  | none => exact Or.inr ⟨rfl, by simp [getCategoryNews, h]⟩

end SituationMonitor
